import Mathlib
/-!
Verification development for the packet-reception dispatch subsystem
(`src/network/model/node.cc`) and the in-band telemetry header codec
(`src/network/utils/int-header.h` / `int-header.cc`) of the
unison-ns3-rdma repository.

The C++ code is shallowly embedded: machine integers become `Nat` with
explicit `% 2 ^ w` wherever the C code truncates (bitfield stores,
32-bit arithmetic), bit-packed unions become explicit pack/unpack
functions over the documented LSB-first bitfield layout, and the ns3
`Buffer::Iterator` collaborator becomes a little-endian byte list.
-/
namespace NS3
/-! ### IntHop (int-header.h)

`class IntHop` packs four bitfields into one 64-bit word:
`lineRate : 64-24-20-17 = 3` bits, `time : 24` bits, `bytes : 20` bits,
`qlen : 17` bits, allocated least-significant-bit first, aliased by
`uint32_t buf[2]` with `buf[0]` the low word. -/
def timeWidth : Nat := 24
def bytesWidth : Nat := 20
def qlenWidth : Nat := 17
/-- Width of the `lineRate` bitfield: `64 - timeWidth - bytesWidth - qlenWidth = 3`. -/
def lineRateWidth : Nat := 64 - timeWidth - bytesWidth - qlenWidth
def byteUnit : Nat := 128
def qlenUnit : Nat := 80
/-- `IntHop::lineRateValues` (int-header.cc). -/
def lineRateValues : List Nat :=
  [25000000000, 50000000000, 100000000000, 200000000000, 400000000000, 0, 0, 0]
/-- One telemetry hop sample; each field holds the value of the corresponding
C bitfield, so `lineRate < 2^3`, `time < 2^24`, `bytes < 2^20`, `qlen < 2^17`
for any value the C program can represent (`IntHop.WF`). -/
structure IntHop where
  lineRate : Nat
  time : Nat
  bytes : Nat
  qlen : Nat
deriving DecidableEq, Repr
/-- Representability of an `IntHop`: every field fits its bitfield width. -/
def IntHop.WF (h : IntHop) : Prop :=
  h.lineRate < 2 ^ lineRateWidth ∧ h.time < 2 ^ timeWidth ∧
    h.bytes < 2 ^ bytesWidth ∧ h.qlen < 2 ^ qlenWidth
instance (h : IntHop) : Decidable h.WF := by
  unfold IntHop.WF; infer_instance
/-- The all-zero hop (`hop[i] = {0}` in the `IntHeader` constructor). -/
def IntHop.zero : IntHop := ⟨0, 0, 0, 0⟩
/-- `IntHop::GetLineRate`: `lineRateValues[IntHop_t.lineRate]`. -/
def IntHop.GetLineRate (h : IntHop) : Nat :=
  lineRateValues.getD h.lineRate 0
/-- `IntHop::GetBytes`: `(uint64_t)IntHop_t.bytes * byteUnit * multi`, computed in
64-bit arithmetic; with `bytes < 2^20` and `multi < 2^32` the product is below
`2^64`, so no truncation is needed. -/
def IntHop.GetBytes (multi : Nat) (h : IntHop) : Nat :=
  h.bytes * byteUnit * multi
/-- `IntHop::GetQlen`: `(uint32_t)IntHop_t.qlen * qlenUnit * multi`, computed in
32-bit arithmetic, hence the `% 2 ^ 32`. -/
def IntHop.GetQlen (multi : Nat) (h : IntHop) : Nat :=
  h.qlen * qlenUnit * multi % 2 ^ 32
/-- `IntHop::GetTime`. -/
def IntHop.GetTime (h : IntHop) : Nat := h.time
/-- `IntHop::Set(_time, _bytes, _qlen, _rate)`. The field stores truncate to the
bitfield widths; the divisors `byteUnit * multi` and `qlenUnit * multi` are
32-bit products, hence their `% 2 ^ 32`. The `switch` on `_rate` stores the
table index of a supported rate; on the `default` branch it prints an error and
leaves `lineRate` unmodified. The returned `Bool` is true exactly when the
error branch was taken. -/
def IntHop.Set (h : IntHop) (multi time bytes qlen rate : Nat) : IntHop × Bool :=
  let h1 : IntHop :=
    { h with
      time := time % 2 ^ timeWidth,
      bytes := bytes / (byteUnit * multi % 2 ^ 32) % 2 ^ bytesWidth,
      qlen := qlen / (qlenUnit * multi % 2 ^ 32) % 2 ^ qlenWidth }
  if rate = 25000000000 then ({ h1 with lineRate := 0 }, false)
  else if rate = 50000000000 then ({ h1 with lineRate := 1 }, false)
  else if rate = 100000000000 then ({ h1 with lineRate := 2 }, false)
  else if rate = 200000000000 then ({ h1 with lineRate := 3 }, false)
  else if rate = 400000000000 then ({ h1 with lineRate := 4 }, false)
  else (h1, true)
/-- `IntHop::GetBytesDelta(b)`: wrap distance of the 20-bit `bytes` counters,
scaled by `byteUnit * multi`. The scaling is computed in 32-bit (`unsigned int`)
arithmetic before widening to the `uint64_t` return, hence the `% 2 ^ 32`. -/
def IntHop.GetBytesDelta (a : IntHop) (multi : Nat) (b : IntHop) : Nat :=
  if b.bytes ≤ a.bytes then
    (a.bytes - b.bytes) * byteUnit * multi % 2 ^ 32
  else
    (a.bytes + 2 ^ bytesWidth - b.bytes) * byteUnit * multi % 2 ^ 32
/-- `IntHop::GetTimeDelta(b)`: wrap distance of the 24-bit `time` counters. -/
def IntHop.GetTimeDelta (a b : IntHop) : Nat :=
  if b.time ≤ a.time then
    a.time - b.time
  else
    a.time + 2 ^ timeWidth - b.time
/-- The 64-bit packed value of a hop, i.e. the contents of the `buf` view of the
union: `lineRate` in bits 0-2, `time` in bits 3-26, `bytes` in bits 27-46,
`qlen` in bits 47-63 (GCC allocates bitfields of a little-endian target from the
least significant bit). The `%` masks are no-ops on representable hops. -/
def IntHop.pack (h : IntHop) : Nat :=
  h.lineRate % 2 ^ lineRateWidth +
    h.time % 2 ^ timeWidth * 2 ^ lineRateWidth +
    h.bytes % 2 ^ bytesWidth * 2 ^ (lineRateWidth + timeWidth) +
    h.qlen % 2 ^ qlenWidth * 2 ^ (lineRateWidth + timeWidth + bytesWidth)
/-- Inverse view of `IntHop.pack`: reading the bitfields out of a 64-bit word. -/
def IntHop.unpack (n : Nat) : IntHop :=
  { lineRate := n % 2 ^ lineRateWidth,
    time := n / 2 ^ lineRateWidth % 2 ^ timeWidth,
    bytes := n / 2 ^ (lineRateWidth + timeWidth) % 2 ^ bytesWidth,
    qlen := n / 2 ^ (lineRateWidth + timeWidth + bytesWidth) % 2 ^ qlenWidth }
/-! ### Byte streams (the ns3 `Buffer::Iterator` collaborator)

`Buffer::Iterator` is outside this source set; its plain (non-network-order)
writes emit the least significant byte first and the reads mirror them, which
also matches the layout the direct `buf` aliasing of the header produces on the
little-endian targets the code assumes. A buffer is a list of bytes (< 256). -/
def writeU8 (n : Nat) : List Nat := [n % 2 ^ 8]
def writeU16 (n : Nat) : List Nat := writeU8 n ++ writeU8 (n / 2 ^ 8)
def writeU32 (n : Nat) : List Nat := writeU16 n ++ writeU16 (n / 2 ^ 16)
def writeU64 (n : Nat) : List Nat := writeU32 n ++ writeU32 (n / 2 ^ 32)
def readU8 : List Nat → Nat × List Nat
  | [] => (0, [])
  | b :: l => (b % 2 ^ 8, l)
def readU16 (l : List Nat) : Nat × List Nat :=
  let (a, l1) := readU8 l
  let (b, l2) := readU8 l1
  (a + 2 ^ 8 * b, l2)
def readU32 (l : List Nat) : Nat × List Nat :=
  let (a, l1) := readU16 l
  let (b, l2) := readU16 l1
  (a + 2 ^ 16 * b, l2)
def readU64 (l : List Nat) : Nat × List Nat :=
  let (a, l1) := readU32 l
  let (b, l2) := readU32 l1
  (a + 2 ^ 32 * b, l2)
/-! ### IntHeader (int-header.h / int-header.cc)

The C `IntHeader` is one union overlaying three views: `{ IntHop hop[5];
uint16_t nhop; }`, `uint64_t ts`, and the 2-byte `pint` union.  Exactly one
mode is active for a run and only the active view is ever read or written, so
the model carries each view as its own field; the process-wide statics
`IntHeader::mode`, `IntHeader::pint_bytes` and `IntHop::multi` are passed as
explicit arguments. -/
/-- `IntHeader::Mode`. -/
inductive Mode
  | NORMAL
  | TS
  | PINT
  | NONE
deriving DecidableEq, Repr
def maxHop : Nat := 5
structure IntHeader where
  hop : List IntHop
  nhop : Nat
  ts : Nat
  power : Nat
deriving DecidableEq, Repr
/-- Representability of an `IntHeader`: five hops that each fit their
bitfields, a 16-bit `nhop`, a 64-bit `ts` and a 16-bit `pint.power`. -/
def IntHeader.WF (h : IntHeader) : Prop :=
  h.hop.length = maxHop ∧ (∀ hp ∈ h.hop, hp.WF) ∧
    h.nhop < 2 ^ 16 ∧ h.ts < 2 ^ 64 ∧ h.power < 2 ^ 16
instance (h : IntHeader) : Decidable h.WF := by
  unfold IntHeader.WF; infer_instance
/-- `IntHeader::IntHeader()`: `nhop = 0` and every hop zeroed (which also
zeroes the aliased `ts` and `pint` bytes). -/
def IntHeader.init : IntHeader :=
  { hop := List.replicate maxHop IntHop.zero, nhop := 0, ts := 0, power := 0 }
/-- `IntHeader::GetStaticSize()`.  Note: in PINT mode the code returns
`sizeof(pint)`, and the `pint` union is 2 bytes wide whatever `pint_bytes`
is configured to. -/
def IntHeader.GetStaticSize (mode : Mode) : Nat :=
  match mode with
  | Mode.NORMAL => maxHop * 8 + 2 -- sizeof(IntHeader_t.hop) + sizeof(IntHeader_t.nhop)
  | Mode.TS => 8                  -- sizeof(ts)
  | Mode.PINT => 2                -- sizeof(pint)
  | Mode.NONE => 0
/-- `IntHeader::PushHop(time, bytes, qlen, rate)`: only in NORMAL mode,
`hop[nhop % maxHop].Set(...)` followed by `nhop++` (a `uint16_t` increment). -/
def IntHeader.PushHop (mode : Mode) (multi : Nat) (h : IntHeader)
    (time bytes qlen rate : Nat) : IntHeader :=
  if mode = Mode.NORMAL then
    let idx := h.nhop % maxHop
    { h with
      hop := h.hop.set idx ((h.hop.getD idx IntHop.zero).Set multi time bytes qlen rate).1,
      nhop := (h.nhop + 1) % 2 ^ 16 }
  else h
/-- One loop iteration of `Serialize` in NORMAL mode:
`WriteU32(hop[j].buf[0]); WriteU32(hop[j].buf[1])`. -/
def serializeHop (hp : IntHop) : List Nat :=
  writeU32 hp.pack ++ writeU32 (hp.pack / 2 ^ 32)
def serializeHops : List IntHop → List Nat
  | [] => []
  | hp :: rest => serializeHop hp ++ serializeHops rest
/-- `IntHeader::Serialize(start)` as the list of bytes written. -/
def IntHeader.Serialize (mode : Mode) (pint_bytes : Nat) (h : IntHeader) : List Nat :=
  match mode with
  | Mode.NORMAL => serializeHops h.hop ++ writeU16 h.nhop
  | Mode.TS => writeU64 h.ts
  | Mode.PINT =>
    if pint_bytes = 1 then writeU8 (h.power % 2 ^ 8)    -- pint.IntHeader_u.power_lo8
    else if pint_bytes = 2 then writeU16 h.power        -- pint.power
    else []
  | Mode.NONE => []
/-- The NORMAL-mode `Deserialize` loop; every one of the `maxHop` slots is
overwritten from two 32-bit reads (`buf[0]` then `buf[1]`), so it is modelled
as reading `maxHop` fresh hops. -/
def deserializeHops : Nat → List Nat → List IntHop × List Nat
  | 0, l => ([], l)
  | n + 1, l =>
    let (w0, l1) := readU32 l
    let (w1, l2) := readU32 l1
    let (hps, l3) := deserializeHops n l2
    (IntHop.unpack (w0 + 2 ^ 32 * w1) :: hps, l3)
/-- `IntHeader::Deserialize(start)`: returns the updated header, the C return
value (`GetStaticSize()`), and the unread remainder of the byte stream. -/
def IntHeader.Deserialize (mode : Mode) (pint_bytes : Nat) (h : IntHeader)
    (l : List Nat) : IntHeader × Nat × List Nat :=
  let r : IntHeader × List Nat :=
    match mode with
    | Mode.NORMAL =>
      let (hps, l1) := deserializeHops maxHop l
      let (n, l2) := readU16 l1
      ({ h with hop := hps, nhop := n }, l2)
    | Mode.TS =>
      let (t, l1) := readU64 l
      ({ h with ts := t }, l1)
    | Mode.PINT =>
      if pint_bytes = 1 then
        let (b, l1) := readU8 l
        ({ h with power := h.power / 2 ^ 8 * 2 ^ 8 + b }, l1)  -- overwrite power_lo8 only
      else if pint_bytes = 2 then
        let (w, l1) := readU16 l
        ({ h with power := w }, l1)
      else (h, l)
    | Mode.NONE => (h, l)
  (r.1, IntHeader.GetStaticSize mode, r.2)
/-- `IntHeader::GetTs()`. -/
def IntHeader.GetTs (mode : Mode) (h : IntHeader) : Nat :=
  if mode = Mode.TS then h.ts else 0
/-- `IntHeader::GetPower()`. -/
def IntHeader.GetPower (mode : Mode) (pint_bytes : Nat) (h : IntHeader) : Nat :=
  if mode = Mode.PINT then
    if pint_bytes = 1 then h.power % 2 ^ 8 else h.power
  else 0
/-- `IntHeader::SetPower(power)`. -/
def IntHeader.SetPower (mode : Mode) (pint_bytes : Nat) (h : IntHeader)
    (power : Nat) : IntHeader :=
  if mode = Mode.PINT then
    if pint_bytes = 1 then { h with power := h.power / 2 ^ 8 * 2 ^ 8 + power % 2 ^ 8 }
    else { h with power := power % 2 ^ 16 }
  else h
/-! ### Node dispatcher (node.cc)

Handlers, listeners and devices are identified by opaque `Nat` tokens; a
`none` device filter models the null `Ptr<NetDevice>`.  Callback invocations
performed by a call are returned as an ordered list of events, each recording
which callback was invoked (every invocation also forwards the call's own
packet/address arguments unchanged, which the events need not repeat). -/
/-- `Node::ProtocolHandlerEntry`. -/
structure ProtocolHandlerEntry where
  handler : Nat
  protocol : Nat
  device : Option Nat
  promiscuous : Bool
deriving DecidableEq, Repr
/-- A `NetDevice` as the dispatcher sees it: its identity and which of its two
receive callbacks currently point back at a node. -/
structure Device where
  id : Nat
  recvCb : Bool     -- SetReceiveCallback installed
  promiscCb : Bool  -- SetPromiscReceiveCallback installed
deriving DecidableEq, Repr
structure NodeState where
  devices : List Device
  handlers : List ProtocolHandlerEntry
  listeners : List Nat
deriving DecidableEq, Repr
/-- The matching rule of `Node::ReceiveFromDevice`, as the spec words it. -/
def entryMatches (e : ProtocolHandlerEntry) (device protocol : Nat)
    (promiscuous : Bool) : Bool :=
  (e.device == none || e.device == some device) &&
    (e.protocol == 0 || e.protocol == protocol) &&
    (promiscuous == e.promiscuous)
/-- `Node::ReceiveFromDevice` restricted to what it computes from its handler
table: the ordered list of handler invocations and the returned `found` flag.
The three nested conditions mirror the source's nested `if`s. -/
def ReceiveFromDevice : List ProtocolHandlerEntry → Nat → Nat → Bool → List Nat × Bool
  | [], _, _, _ => ([], false)
  | e :: rest, device, protocol, promiscuous =>
    let r := ReceiveFromDevice rest device protocol promiscuous
    if e.device == none || e.device == some device then
      if e.protocol == 0 || e.protocol == protocol then
        if promiscuous == e.promiscuous then
          (e.handler :: r.1, true)
        else r
      else r
    else r
/-- `Node::AddDevice(device)`: append the device, install the non-promiscuous
receive callback on it, then `NotifyDeviceAdded` runs every registered listener
once for it.  Returns the new state, the assigned index, and the listener
invocations as `(listener, device id)` events in listener order. -/
def AddDevice (st : NodeState) (d : Device) : NodeState × Nat × List (Nat × Nat) :=
  let index := st.devices.length
  let d1 : Device := { d with recvCb := true }
  ({ st with devices := st.devices ++ [d1] },
   index,
   st.listeners.map fun l => (l, d.id))
/-- `Node::RegisterDeviceAdditionListener(listener)`: append the listener, then
replay it over every already-attached device in attachment order.  Returns the
new state and the replay invocations as `(listener, device id)` events. -/
def RegisterDeviceAdditionListener (st : NodeState) (l : Nat) :
    NodeState × List (Nat × Nat) :=
  ({ st with listeners := st.listeners ++ [l] },
   st.devices.map fun d => (l, d.id))
/-- `Node::RegisterProtocolHandler(handler, protocolType, device, promiscuous)`:
if `promiscuous`, install the promiscuous receive callback on every currently
attached device (null filter) or on the named device; then append the entry. -/
def RegisterProtocolHandler (st : NodeState) (handler protocol : Nat)
    (device : Option Nat) (promiscuous : Bool) : NodeState :=
  let st1 :=
    if promiscuous then
      match device with
      | none =>
        { st with devices := st.devices.map fun d => { d with promiscCb := true } }
      | some did =>
        { st with devices := st.devices.map fun d =>
            if d.id = did then { d with promiscCb := true } else d }
    else st
  { st1 with handlers := st1.handlers ++
      [{ handler := handler, protocol := protocol, device := device,
         promiscuous := promiscuous }] }

/-! ### Helper lemmas -/

theorem IntHop.unpack_pack (h : IntHop) (hWF : h.WF) : IntHop.unpack h.pack = h := by
  obtain ⟨l, t, b, q⟩ := h
  obtain ⟨h1, h2, h3, h4⟩ := hWF
  simp only [IntHop.WF, lineRateWidth, timeWidth, bytesWidth, qlenWidth] at h1 h2 h3 h4
  simp only [IntHop.unpack, IntHop.pack, lineRateWidth, timeWidth, bytesWidth, qlenWidth]
  norm_num
  refine ⟨?_, ?_, ?_, ?_⟩ <;> omega
theorem IntHop.pack_lt (h : IntHop) : h.pack < 2 ^ 64 := by
  obtain ⟨l, t, b, q⟩ := h
  simp only [IntHop.pack, lineRateWidth, timeWidth, bytesWidth, qlenWidth]
  norm_num
  omega
theorem readU8_write (n : Nat) (r : List Nat) : readU8 (writeU8 n ++ r) = (n % 2 ^ 8, r) := by
  simp only [writeU8, List.cons_append, List.nil_append, readU8, Prod.mk.injEq]
  exact ⟨by omega, trivial⟩
theorem readU16_write (n : Nat) (r : List Nat) :
    readU16 (writeU16 n ++ r) = (n % 2 ^ 16, r) := by
  simp only [writeU16, List.append_assoc, readU16, readU8_write, Prod.mk.injEq]
  exact ⟨by omega, trivial⟩
theorem readU32_write (n : Nat) (r : List Nat) :
    readU32 (writeU32 n ++ r) = (n % 2 ^ 32, r) := by
  simp only [writeU32, List.append_assoc, readU32, readU16_write, Prod.mk.injEq]
  exact ⟨by omega, trivial⟩
theorem readU64_write (n : Nat) (r : List Nat) :
    readU64 (writeU64 n ++ r) = (n % 2 ^ 64, r) := by
  simp only [writeU64, List.append_assoc, readU64, readU32_write, Prod.mk.injEq]
  exact ⟨by omega, trivial⟩
theorem writeU8_length (n : Nat) : (writeU8 n).length = 1 := rfl
theorem writeU16_length (n : Nat) : (writeU16 n).length = 2 := rfl
theorem writeU32_length (n : Nat) : (writeU32 n).length = 4 := rfl
theorem writeU64_length (n : Nat) : (writeU64 n).length = 8 := rfl
theorem serializeHop_length (hp : IntHop) : (serializeHop hp).length = 8 := rfl
theorem serializeHops_length (hps : List IntHop) :
    (serializeHops hps).length = 8 * hps.length := by
  induction hps with
  | nil => rfl
  | cons hp rest ih =>
    simp only [serializeHops, List.length_append, serializeHop_length, ih, List.length_cons]
    ring
/-- Reading a serialized hop back gives the hop, for representable hops. -/
theorem deserializeHops_serializeHops (hps : List IntHop) (rest : List Nat)
    (hWF : ∀ hp ∈ hps, hp.WF) :
    deserializeHops hps.length (serializeHops hps ++ rest) = (hps, rest) := by
  induction hps with
  | nil => rfl
  | cons hp tl ih =>
    have hhp : hp.WF := hWF hp (List.mem_cons_self hp tl)
    have htl : ∀ x ∈ tl, x.WF := fun x hx => hWF x (List.mem_cons_of_mem hp hx)
    have hlt := IntHop.pack_lt hp
    simp only [List.length_cons, serializeHops, serializeHop, deserializeHops,
      List.append_assoc, readU32_write, ih htl]
    have hw : hp.pack % 2 ^ 32 + 2 ^ 32 * (hp.pack / 2 ^ 32 % 2 ^ 32) = hp.pack := by
      omega
    rw [hw, IntHop.unpack_pack hp hhp]
/-- NORMAL-mode round trip: ten 32-bit words then the 16-bit counter. -/
theorem roundtrip_normal (pb : Nat) (h h0 : IntHeader) (rest : List Nat)
    (hlen : h.hop.length = maxHop) (hhops : ∀ hp ∈ h.hop, hp.WF)
    (hn : h.nhop < 2 ^ 16) :
    IntHeader.Deserialize Mode.NORMAL pb h0
        (IntHeader.Serialize Mode.NORMAL pb h ++ rest) =
      ({ h0 with hop := h.hop, nhop := h.nhop }, 42, rest) := by
  have hd : deserializeHops maxHop (serializeHops h.hop ++ (writeU16 h.nhop ++ rest)) =
      (h.hop, writeU16 h.nhop ++ rest) := by
    rw [← hlen]
    exact deserializeHops_serializeHops h.hop (writeU16 h.nhop ++ rest) hhops
  simp only [IntHeader.Serialize, IntHeader.Deserialize, List.append_assoc, hd,
    readU16_write, IntHeader.GetStaticSize, Nat.mod_eq_of_lt hn]
  norm_num [maxHop]
/-- TS-mode round trip: one 64-bit word. -/
theorem roundtrip_ts (pb : Nat) (h h0 : IntHeader) (rest : List Nat)
    (hts : h.ts < 2 ^ 64) :
    IntHeader.Deserialize Mode.TS pb h0 (IntHeader.Serialize Mode.TS pb h ++ rest) =
      ({ h0 with ts := h.ts }, 8, rest) := by
  simp only [IntHeader.Serialize, IntHeader.Deserialize, readU64_write,
    IntHeader.GetStaticSize, Nat.mod_eq_of_lt hts]
/-- PINT-mode round trip with a configured width of 1 byte: one byte carrying
`power_lo8`; only the low byte of the destination's `power` is overwritten. -/
theorem roundtrip_pint1 (h h0 : IntHeader) (rest : List Nat) :
    IntHeader.Deserialize Mode.PINT 1 h0 (IntHeader.Serialize Mode.PINT 1 h ++ rest) =
      ({ h0 with power := h0.power / 2 ^ 8 * 2 ^ 8 + h.power % 2 ^ 8 }, 2, rest) := by
  have hmm : h.power % 2 ^ 8 % 2 ^ 8 = h.power % 2 ^ 8 := by omega
  simp only [IntHeader.Deserialize, IntHeader.Serialize]
  norm_num [readU8_write, hmm, IntHeader.GetStaticSize]
/-- PINT-mode round trip with a configured width of 2 bytes. -/
theorem roundtrip_pint2 (h h0 : IntHeader) (rest : List Nat) (hp : h.power < 2 ^ 16) :
    IntHeader.Deserialize Mode.PINT 2 h0 (IntHeader.Serialize Mode.PINT 2 h ++ rest) =
      ({ h0 with power := h.power }, 2, rest) := by
  simp only [IntHeader.Deserialize, IntHeader.Serialize]
  norm_num [readU16_write, Nat.mod_eq_of_lt hp, IntHeader.GetStaticSize]
  omega
/-- NONE-mode round trip: nothing written, nothing read. -/
theorem roundtrip_none (pb : Nat) (h h0 : IntHeader) (rest : List Nat) :
    IntHeader.Deserialize Mode.NONE pb h0 (IntHeader.Serialize Mode.NONE pb h ++ rest) =
      (h0, 0, rest) := rfl

/-! ### Claim theorems -/

/-- C1: `Node::ReceiveFromDevice` considers the handler entries in registration
order; an entry is invoked exactly when its device filter is unset or equal to
the arriving device, its protocol filter is zero or equal to the packet's
protocol, and its promiscuous flag equals the promiscuous path flag; every
matching entry is invoked (in table order), and the call returns true iff at
least one entry matched. -/
theorem receiveFromDevice_dispatch_spec (hs : List ProtocolHandlerEntry)
    (device protocol : Nat) (promiscuous : Bool) :
    (ReceiveFromDevice hs device protocol promiscuous).1 =
      ((hs.filter fun e => entryMatches e device protocol promiscuous).map
        fun e => e.handler) ∧
    (ReceiveFromDevice hs device protocol promiscuous).2 =
      (hs.any fun e => entryMatches e device protocol promiscuous) := by
  induction hs with
  | nil => exact ⟨rfl, rfl⟩
  | cons e rest ih =>
    have hm : entryMatches e device protocol promiscuous =
        ((e.device == none || e.device == some device) &&
          (e.protocol == 0 || e.protocol == protocol) &&
          (promiscuous == e.promiscuous)) := rfl
    simp only [ReceiveFromDevice, List.filter_cons, List.any_cons]
    cases h1 : (e.device == none || e.device == some device) <;>
      cases h2 : (e.protocol == 0 || e.protocol == protocol) <;>
        cases h3 : (promiscuous == e.promiscuous) <;>
          simp [hm, h1, h2, h3, ih.1, ih.2]

/-- C8: `Node::RegisterDeviceAdditionListener` appends the listener and, before
returning, replays it exactly once for every already-attached device in
attachment order; a device attached afterwards triggers every registered
listener (including the new one) exactly once more, for that device only. -/
theorem registerDeviceAdditionListener_replay (st : NodeState) (l : Nat) (d : Device) :
    (RegisterDeviceAdditionListener st l).2 = (st.devices.map fun dev => (l, dev.id)) ∧
    (RegisterDeviceAdditionListener st l).1.listeners = st.listeners ++ [l] ∧
    (AddDevice (RegisterDeviceAdditionListener st l).1 d).2.2 =
      ((st.listeners ++ [l]).map fun l2 => (l2, d.id)) :=
  ⟨rfl, rfl, rfl⟩

/-- C9: a wildcard promiscuous `Node::RegisterProtocolHandler` installs the
promiscuous receive callback on exactly the devices attached at the time of the
call; a device attached later by `Node::AddDevice` only gets the
non-promiscuous receive callback, and the later `AddDevice` leaves every other
device's callbacks untouched. -/
theorem registerProtocolHandler_promisc_snapshot (st : NodeState)
    (handler protocol : Nat) (d : Device) (hd : d.promiscCb = false) :
    (RegisterProtocolHandler st handler protocol none true).devices =
      (st.devices.map fun dev => { dev with promiscCb := true }) ∧
    (∀ dev ∈ (RegisterProtocolHandler st handler protocol none true).devices,
      dev.promiscCb = true) ∧
    (AddDevice (RegisterProtocolHandler st handler protocol none true) d).1.devices =
      (RegisterProtocolHandler st handler protocol none true).devices ++
        [{ d with recvCb := true }] ∧
    ({ d with recvCb := true } : Device).promiscCb = false := by
  refine ⟨rfl, ?_, rfl, hd⟩
  intro dev hdev
  simp only [RegisterProtocolHandler, if_pos, List.mem_map] at hdev
  obtain ⟨x, hx, rfl⟩ := hdev
  rfl

/-- Witness for C9 at a concrete node state with two attached devices and a
fresh third device. -/
theorem registerProtocolHandler_promisc_snapshot_witness :
    (⟨2, false, false⟩ : Device).promiscCb = false ∧
    ((RegisterProtocolHandler ⟨[⟨0, false, false⟩, ⟨1, true, false⟩], [], []⟩
        7 2048 none true).devices =
      ([⟨0, false, false⟩, ⟨1, true, false⟩] : List Device).map
        (fun dev => { dev with promiscCb := true }) ∧
    (∀ dev ∈ (RegisterProtocolHandler ⟨[⟨0, false, false⟩, ⟨1, true, false⟩], [], []⟩
        7 2048 none true).devices, dev.promiscCb = true) ∧
    (AddDevice (RegisterProtocolHandler ⟨[⟨0, false, false⟩, ⟨1, true, false⟩], [], []⟩
        7 2048 none true) ⟨2, false, false⟩).1.devices =
      (RegisterProtocolHandler ⟨[⟨0, false, false⟩, ⟨1, true, false⟩], [], []⟩
        7 2048 none true).devices ++ [{ (⟨2, false, false⟩ : Device) with recvCb := true }] ∧
    ({ (⟨2, false, false⟩ : Device) with recvCb := true } : Device).promiscCb = false) :=
  ⟨rfl, registerProtocolHandler_promisc_snapshot
    ⟨[⟨0, false, false⟩, ⟨1, true, false⟩], [], []⟩ 7 2048 ⟨2, false, false⟩ rfl⟩

/-- The `time` store of `Set` happens on every rate branch. -/
theorem IntHop.Set_fst_time (h : IntHop) (multi t b q r : Nat) :
    (h.Set multi t b q r).1.time = t % 2 ^ timeWidth := by
  unfold IntHop.Set
  split_ifs <;> rfl

/-- The `bytes` store of `Set` happens on every rate branch. -/
theorem IntHop.Set_fst_bytes (h : IntHop) (multi t b q r : Nat) :
    (h.Set multi t b q r).1.bytes = b / (byteUnit * multi % 2 ^ 32) % 2 ^ bytesWidth := by
  unfold IntHop.Set
  split_ifs <;> rfl

/-- The `qlen` store of `Set` happens on every rate branch. -/
theorem IntHop.Set_fst_qlen (h : IntHop) (multi t b q r : Nat) :
    (h.Set multi t b q r).1.qlen = q / (qlenUnit * multi % 2 ^ 32) % 2 ^ qlenWidth := by
  unfold IntHop.Set
  split_ifs <;> rfl

/-- C4: `IntHeader::PushHop` is a no-op outside NORMAL mode; in NORMAL mode it
overwrites exactly ring slot `nhop % maxHop` with `Set` of its arguments,
leaves every other slot unchanged, and increments the 16-bit push counter by
one (wrapping at `2 ^ 16`, as a `uint16_t` increment does). -/
theorem pushHop_spec (mode : Mode) (multi : Nat) (h : IntHeader) (t b q r : Nat)
    (hlen : h.hop.length = maxHop) :
    (mode ≠ Mode.NORMAL → IntHeader.PushHop mode multi h t b q r = h) ∧
    (mode = Mode.NORMAL →
      (IntHeader.PushHop mode multi h t b q r).hop.getD (h.nhop % maxHop) IntHop.zero =
        ((h.hop.getD (h.nhop % maxHop) IntHop.zero).Set multi t b q r).1 ∧
      (∀ j, j < maxHop → j ≠ h.nhop % maxHop →
        (IntHeader.PushHop mode multi h t b q r).hop.getD j IntHop.zero =
          h.hop.getD j IntHop.zero) ∧
      (IntHeader.PushHop mode multi h t b q r).nhop = (h.nhop + 1) % 2 ^ 16 ∧
      (h.nhop + 1 < 2 ^ 16 → (IntHeader.PushHop mode multi h t b q r).nhop = h.nhop + 1) ∧
      (IntHeader.PushHop mode multi h t b q r).hop.length = maxHop) := by
  constructor
  · intro hm
    simp [IntHeader.PushHop, hm]
  · intro hm
    subst hm
    have hidx : h.nhop % maxHop < h.hop.length := by
      rw [hlen]
      exact Nat.mod_lt _ (by norm_num [maxHop])
    have hpush : IntHeader.PushHop Mode.NORMAL multi h t b q r =
        { h with
          hop := h.hop.set (h.nhop % maxHop)
            ((h.hop.getD (h.nhop % maxHop) IntHop.zero).Set multi t b q r).1,
          nhop := (h.nhop + 1) % 2 ^ 16 } := by
      simp [IntHeader.PushHop]
    refine ⟨?_, ?_, ?_, ?_, ?_⟩
    · rw [hpush]
      simp only [List.getD_eq_getElem?_getD, List.getElem?_set_eq hidx, Option.getD_some]
    · intro j hj hne
      rw [hpush]
      simp only [List.getD_eq_getElem?_getD, List.getElem?_set_ne (Ne.symm hne)]
    · rw [hpush]
    · intro hlt
      rw [hpush]
      show (h.nhop + 1) % 2 ^ 16 = h.nhop + 1
      omega
    · rw [hpush]
      simp [hlen]

/-- Witness for C4: one push on a fresh header in NORMAL mode. -/
theorem pushHop_spec_witness :
    IntHeader.init.hop.length = maxHop ∧
    ((Mode.NORMAL ≠ Mode.NORMAL →
      IntHeader.PushHop Mode.NORMAL 1 IntHeader.init 9 4000 200 100000000000 = IntHeader.init) ∧
    (Mode.NORMAL = Mode.NORMAL →
      (IntHeader.PushHop Mode.NORMAL 1 IntHeader.init 9 4000 200 100000000000).hop.getD
          (IntHeader.init.nhop % maxHop) IntHop.zero =
        ((IntHeader.init.hop.getD (IntHeader.init.nhop % maxHop) IntHop.zero).Set
          1 9 4000 200 100000000000).1 ∧
      (∀ j, j < maxHop → j ≠ IntHeader.init.nhop % maxHop →
        (IntHeader.PushHop Mode.NORMAL 1 IntHeader.init 9 4000 200 100000000000).hop.getD
            j IntHop.zero =
          IntHeader.init.hop.getD j IntHop.zero) ∧
      (IntHeader.PushHop Mode.NORMAL 1 IntHeader.init 9 4000 200 100000000000).nhop =
        (IntHeader.init.nhop + 1) % 2 ^ 16 ∧
      (IntHeader.init.nhop + 1 < 2 ^ 16 →
        (IntHeader.PushHop Mode.NORMAL 1 IntHeader.init 9 4000 200 100000000000).nhop =
          IntHeader.init.nhop + 1) ∧
      (IntHeader.PushHop Mode.NORMAL 1 IntHeader.init 9 4000 200 100000000000).hop.length =
        maxHop)) :=
  ⟨by decide, pushHop_spec Mode.NORMAL 1 IntHeader.init 9 4000 200 100000000000 (by decide)⟩

/-- C5: `IntHop::Set` stores the table index 0..4 for each of the five
supported line rates (and reports no error); for any other rate it reports an
error and leaves the rate field — and hence `GetLineRate()` — unchanged. -/
theorem set_rate_spec (h : IntHop) (multi t b q r : Nat) :
    (r = 25000000000 →
      (h.Set multi t b q r).1.lineRate = 0 ∧ (h.Set multi t b q r).2 = false) ∧
    (r = 50000000000 →
      (h.Set multi t b q r).1.lineRate = 1 ∧ (h.Set multi t b q r).2 = false) ∧
    (r = 100000000000 →
      (h.Set multi t b q r).1.lineRate = 2 ∧ (h.Set multi t b q r).2 = false) ∧
    (r = 200000000000 →
      (h.Set multi t b q r).1.lineRate = 3 ∧ (h.Set multi t b q r).2 = false) ∧
    (r = 400000000000 →
      (h.Set multi t b q r).1.lineRate = 4 ∧ (h.Set multi t b q r).2 = false) ∧
    (r ≠ 25000000000 ∧ r ≠ 50000000000 ∧ r ≠ 100000000000 ∧
        r ≠ 200000000000 ∧ r ≠ 400000000000 →
      (h.Set multi t b q r).2 = true ∧
      (h.Set multi t b q r).1.lineRate = h.lineRate ∧
      (h.Set multi t b q r).1.GetLineRate = h.GetLineRate) := by
  refine ⟨?_, ?_, ?_, ?_, ?_, ?_⟩
  · intro hr; subst hr; exact ⟨rfl, rfl⟩
  · intro hr; subst hr; exact ⟨rfl, rfl⟩
  · intro hr; subst hr; exact ⟨rfl, rfl⟩
  · intro hr; subst hr; exact ⟨rfl, rfl⟩
  · intro hr; subst hr; exact ⟨rfl, rfl⟩
  · rintro ⟨h1, h2, h3, h4, h5⟩
    simp [IntHop.Set, IntHop.GetLineRate, h1, h2, h3, h4, h5]

/-- Witness for C5: a hop whose rate field holds index 1 keeps it (and keeps
`GetLineRate() = 50 Gbps`) across a failed `Set` with the unsupported rate
10 Gbps. -/
theorem set_rate_spec_witness :
    ((10000000000 : Nat) = 25000000000 →
      ((⟨1, 0, 0, 0⟩ : IntHop).Set 1 7 1000 200 10000000000).1.lineRate = 0 ∧
      ((⟨1, 0, 0, 0⟩ : IntHop).Set 1 7 1000 200 10000000000).2 = false) ∧
    ((10000000000 : Nat) = 50000000000 →
      ((⟨1, 0, 0, 0⟩ : IntHop).Set 1 7 1000 200 10000000000).1.lineRate = 1 ∧
      ((⟨1, 0, 0, 0⟩ : IntHop).Set 1 7 1000 200 10000000000).2 = false) ∧
    ((10000000000 : Nat) = 100000000000 →
      ((⟨1, 0, 0, 0⟩ : IntHop).Set 1 7 1000 200 10000000000).1.lineRate = 2 ∧
      ((⟨1, 0, 0, 0⟩ : IntHop).Set 1 7 1000 200 10000000000).2 = false) ∧
    ((10000000000 : Nat) = 200000000000 →
      ((⟨1, 0, 0, 0⟩ : IntHop).Set 1 7 1000 200 10000000000).1.lineRate = 3 ∧
      ((⟨1, 0, 0, 0⟩ : IntHop).Set 1 7 1000 200 10000000000).2 = false) ∧
    ((10000000000 : Nat) = 400000000000 →
      ((⟨1, 0, 0, 0⟩ : IntHop).Set 1 7 1000 200 10000000000).1.lineRate = 4 ∧
      ((⟨1, 0, 0, 0⟩ : IntHop).Set 1 7 1000 200 10000000000).2 = false) ∧
    ((10000000000 : Nat) ≠ 25000000000 ∧ (10000000000 : Nat) ≠ 50000000000 ∧
        (10000000000 : Nat) ≠ 100000000000 ∧ (10000000000 : Nat) ≠ 200000000000 ∧
        (10000000000 : Nat) ≠ 400000000000 →
      ((⟨1, 0, 0, 0⟩ : IntHop).Set 1 7 1000 200 10000000000).2 = true ∧
      ((⟨1, 0, 0, 0⟩ : IntHop).Set 1 7 1000 200 10000000000).1.lineRate =
        (⟨1, 0, 0, 0⟩ : IntHop).lineRate ∧
      ((⟨1, 0, 0, 0⟩ : IntHop).Set 1 7 1000 200 10000000000).1.GetLineRate =
        (⟨1, 0, 0, 0⟩ : IntHop).GetLineRate) :=
  set_rate_spec ⟨1, 0, 0, 0⟩ 1 7 1000 200 10000000000

/-- C10: a `Set` call whose rate matches none of the five supported values is
not atomic: it still overwrites `time`, `bytes` and `qlen` with the new
quantized values and only the rate field keeps its prior value. -/
theorem set_failed_overwrites (h : IntHop) (multi t b q r : Nat)
    (hr : r ≠ 25000000000 ∧ r ≠ 50000000000 ∧ r ≠ 100000000000 ∧
      r ≠ 200000000000 ∧ r ≠ 400000000000) :
    (h.Set multi t b q r).2 = true ∧
    (h.Set multi t b q r).1.time = t % 2 ^ timeWidth ∧
    (h.Set multi t b q r).1.bytes = b / (byteUnit * multi % 2 ^ 32) % 2 ^ bytesWidth ∧
    (h.Set multi t b q r).1.qlen = q / (qlenUnit * multi % 2 ^ 32) % 2 ^ qlenWidth ∧
    (h.Set multi t b q r).1.lineRate = h.lineRate := by
  obtain ⟨h1, h2, h3, h4, h5⟩ := hr
  refine ⟨?_, IntHop.Set_fst_time h multi t b q r, IntHop.Set_fst_bytes h multi t b q r,
    IntHop.Set_fst_qlen h multi t b q r, ?_⟩
  · simp [IntHop.Set, h1, h2, h3, h4, h5]
  · simp [IntHop.Set, h1, h2, h3, h4, h5]

/-- Witness for C10: the failed `Set` with rate 10 Gbps on a hop with stale
nonzero fields overwrites everything except the rate index. -/
theorem set_failed_overwrites_witness :
    ((10000000000 : Nat) ≠ 25000000000 ∧ (10000000000 : Nat) ≠ 50000000000 ∧
      (10000000000 : Nat) ≠ 100000000000 ∧ (10000000000 : Nat) ≠ 200000000000 ∧
      (10000000000 : Nat) ≠ 400000000000) ∧
    (((⟨3, 11, 22, 33⟩ : IntHop).Set 1 7 1000 200 10000000000).2 = true ∧
    ((⟨3, 11, 22, 33⟩ : IntHop).Set 1 7 1000 200 10000000000).1.time =
      7 % 2 ^ timeWidth ∧
    ((⟨3, 11, 22, 33⟩ : IntHop).Set 1 7 1000 200 10000000000).1.bytes =
      1000 / (byteUnit * 1 % 2 ^ 32) % 2 ^ bytesWidth ∧
    ((⟨3, 11, 22, 33⟩ : IntHop).Set 1 7 1000 200 10000000000).1.qlen =
      200 / (qlenUnit * 1 % 2 ^ 32) % 2 ^ qlenWidth ∧
    ((⟨3, 11, 22, 33⟩ : IntHop).Set 1 7 1000 200 10000000000).1.lineRate =
      (⟨3, 11, 22, 33⟩ : IntHop).lineRate) :=
  ⟨by decide, set_failed_overwrites ⟨3, 11, 22, 33⟩ 1 7 1000 200 10000000000 (by decide)⟩

/-- C6 counterexample: the claim quantifies over every `bytes ≥ 0`, but at
`bytes = 2 ^ 20 * byteUnit = 134217728` (with `multi = 1`) the 20-bit bitfield
store truncates the quotient to 0, so `GetBytes()` returns 0, far below the
claimed lower bound `bytes - byteUnit * multi + 1`. -/
theorem set_quantization_cex :
    IntHop.GetBytes 1 (IntHop.zero.Set 1 0 134217728 0 25000000000).1 = 0 ∧
    ¬(134217728 - byteUnit * 1 + 1 ≤
        IntHop.GetBytes 1 (IntHop.zero.Set 1 0 134217728 0 25000000000).1) := by
  decide

/-- C6 (amended): the quantization round-trip bound
`GetBytes() ∈ [bytes - byteUnit*multi + 1, bytes]`, with `GetBytes()` a
multiple of `byteUnit * multi`, holds whenever the quantized value fits the
20-bit `bytes` bitfield, i.e. `bytes / (byteUnit*multi) < 2 ^ 20`; same shape
for `qlen` with `qlenUnit` and the 17-bit field (with `qlen` in `uint32_t`
range as in the source signature). -/
theorem set_quantization_bounds (h : IntHop) (multi t b q r : Nat) (hm : 0 < multi)
    (hbu : byteUnit * multi < 2 ^ 32) (hqu : qlenUnit * multi < 2 ^ 32)
    (hb : b / (byteUnit * multi) < 2 ^ bytesWidth)
    (hq : q / (qlenUnit * multi) < 2 ^ qlenWidth) (hq32 : q < 2 ^ 32) :
    (IntHop.GetBytes multi (h.Set multi t b q r).1 ≤ b ∧
      b < IntHop.GetBytes multi (h.Set multi t b q r).1 + byteUnit * multi ∧
      byteUnit * multi ∣ IntHop.GetBytes multi (h.Set multi t b q r).1) ∧
    (IntHop.GetQlen multi (h.Set multi t b q r).1 ≤ q ∧
      q < IntHop.GetQlen multi (h.Set multi t b q r).1 + qlenUnit * multi ∧
      qlenUnit * multi ∣ IntHop.GetQlen multi (h.Set multi t b q r).1) := by
  have hbytes : (h.Set multi t b q r).1.bytes = b / (byteUnit * multi) := by
    rw [IntHop.Set_fst_bytes, Nat.mod_eq_of_lt hbu, Nat.mod_eq_of_lt hb]
  have hqlen : (h.Set multi t b q r).1.qlen = q / (qlenUnit * multi) := by
    rw [IntHop.Set_fst_qlen, Nat.mod_eq_of_lt hqu, Nat.mod_eq_of_lt hq]
  constructor
  · unfold IntHop.GetBytes
    rw [hbytes, Nat.mul_assoc]
    have h1 : b / (byteUnit * multi) * (byteUnit * multi) ≤ b :=
      Nat.div_mul_le_self b (byteUnit * multi)
    have hpos : 0 < byteUnit * multi := Nat.mul_pos (by norm_num [byteUnit]) hm
    have h2 : b % (byteUnit * multi) < byteUnit * multi := Nat.mod_lt b hpos
    have h4 : b < b / (byteUnit * multi) * (byteUnit * multi) + byteUnit * multi := by
      calc b = byteUnit * multi * (b / (byteUnit * multi)) + b % (byteUnit * multi) :=
            (Nat.div_add_mod b (byteUnit * multi)).symm
        _ < byteUnit * multi * (b / (byteUnit * multi)) + byteUnit * multi :=
            Nat.add_lt_add_left h2 _
        _ = b / (byteUnit * multi) * (byteUnit * multi) + byteUnit * multi := by
            rw [Nat.mul_comm]
    exact ⟨h1, h4, dvd_mul_left (byteUnit * multi) (b / (byteUnit * multi))⟩
  · unfold IntHop.GetQlen
    rw [hqlen, Nat.mul_assoc]
    have h1 : q / (qlenUnit * multi) * (qlenUnit * multi) ≤ q :=
      Nat.div_mul_le_self q (qlenUnit * multi)
    have hmod : q / (qlenUnit * multi) * (qlenUnit * multi) % 2 ^ 32 =
        q / (qlenUnit * multi) * (qlenUnit * multi) :=
      Nat.mod_eq_of_lt (lt_of_le_of_lt h1 hq32)
    rw [hmod]
    have hpos : 0 < qlenUnit * multi := Nat.mul_pos (by norm_num [qlenUnit]) hm
    have h2 : q % (qlenUnit * multi) < qlenUnit * multi := Nat.mod_lt q hpos
    have h4 : q < q / (qlenUnit * multi) * (qlenUnit * multi) + qlenUnit * multi := by
      calc q = qlenUnit * multi * (q / (qlenUnit * multi)) + q % (qlenUnit * multi) :=
            (Nat.div_add_mod q (qlenUnit * multi)).symm
        _ < qlenUnit * multi * (q / (qlenUnit * multi)) + qlenUnit * multi :=
            Nat.add_lt_add_left h2 _
        _ = q / (qlenUnit * multi) * (qlenUnit * multi) + qlenUnit * multi := by
            rw [Nat.mul_comm]
    exact ⟨h1, h4, dvd_mul_left (qlenUnit * multi) (q / (qlenUnit * multi))⟩

/-- Witness for the amended C6 at `bytes = 1000`, `qlen = 200`, `multi = 1`. -/
theorem set_quantization_bounds_witness :
    0 < 1 ∧ byteUnit * 1 < 2 ^ 32 ∧ qlenUnit * 1 < 2 ^ 32 ∧
    1000 / (byteUnit * 1) < 2 ^ bytesWidth ∧ 200 / (qlenUnit * 1) < 2 ^ qlenWidth ∧
    200 < 2 ^ 32 ∧
    ((IntHop.GetBytes 1 (IntHop.zero.Set 1 7 1000 200 25000000000).1 ≤ 1000 ∧
      1000 < IntHop.GetBytes 1 (IntHop.zero.Set 1 7 1000 200 25000000000).1 +
        byteUnit * 1 ∧
      byteUnit * 1 ∣ IntHop.GetBytes 1 (IntHop.zero.Set 1 7 1000 200 25000000000).1) ∧
    (IntHop.GetQlen 1 (IntHop.zero.Set 1 7 1000 200 25000000000).1 ≤ 200 ∧
      200 < IntHop.GetQlen 1 (IntHop.zero.Set 1 7 1000 200 25000000000).1 +
        qlenUnit * 1 ∧
      qlenUnit * 1 ∣ IntHop.GetQlen 1 (IntHop.zero.Set 1 7 1000 200 25000000000).1)) :=
  ⟨by decide, by decide, by decide, by decide, by decide, by decide,
    set_quantization_bounds IntHop.zero 1 7 1000 200 25000000000
      (by decide) (by decide) (by decide) (by decide) (by decide) (by decide)⟩

/-- C7: `GetBytesDelta` and `GetTimeDelta` compute the modulo-`2^width` wrap
distance (widths 20 and 24), the bytes delta additionally scaled by
`byteUnit * multi`; the result is a natural number, never negative.  The
hypothesis keeps the 32-bit scaling multiplication of the source exact. -/
theorem delta_wrap_spec (a b : IntHop) (multi : Nat) (ha : a.WF) (hb : b.WF)
    (hm : byteUnit * multi * 2 ^ bytesWidth ≤ 2 ^ 32) :
    (b.bytes ≤ a.bytes →
      a.GetBytesDelta multi b = (a.bytes - b.bytes) * byteUnit * multi) ∧
    (a.bytes < b.bytes →
      a.GetBytesDelta multi b = (a.bytes + 2 ^ bytesWidth - b.bytes) * byteUnit * multi) ∧
    (b.time ≤ a.time → a.GetTimeDelta b = a.time - b.time) ∧
    (a.time < b.time → a.GetTimeDelta b = a.time + 2 ^ timeWidth - b.time) := by
  have key : ∀ d : Nat, d < 2 ^ bytesWidth →
      d * byteUnit * multi % 2 ^ 32 = d * byteUnit * multi := by
    intro d hd
    apply Nat.mod_eq_of_lt
    rcases Nat.eq_zero_or_pos (byteUnit * multi) with h0 | h0
    · have hz : d * byteUnit * multi = 0 := by
        rw [Nat.mul_assoc, h0, Nat.mul_zero]
      rw [hz]
      norm_num
    · calc d * byteUnit * multi = d * (byteUnit * multi) := by rw [Nat.mul_assoc]
        _ < 2 ^ bytesWidth * (byteUnit * multi) := mul_lt_mul_of_pos_right hd h0
        _ = byteUnit * multi * 2 ^ bytesWidth := by ring
        _ ≤ 2 ^ 32 := hm
  refine ⟨?_, ?_, ?_, ?_⟩
  · intro hle
    unfold IntHop.GetBytesDelta
    rw [if_pos hle]
    exact key _ (lt_of_le_of_lt (Nat.sub_le _ _) ha.2.2.1)
  · intro hlt
    unfold IntHop.GetBytesDelta
    rw [if_neg (not_le.mpr hlt)]
    have hbb := hb.2.2.1
    exact key _ (by omega)
  · intro hle
    unfold IntHop.GetTimeDelta
    rw [if_pos hle]
  · intro hlt
    unfold IntHop.GetTimeDelta
    rw [if_neg (not_le.mpr hlt)]

/-- Witness for C7 at the spec's own test vector: sample A with
`bytes = 5`, sample B with `bytes = 2 ^ 20 - 3 = 1048573`, `multi = 1`; the
wrapped delta is `8 * byteUnit = 1024`. -/
theorem delta_wrap_spec_witness :
    (⟨0, 10, 5, 0⟩ : IntHop).WF ∧ (⟨0, 3, 1048573, 0⟩ : IntHop).WF ∧
    byteUnit * 1 * 2 ^ bytesWidth ≤ 2 ^ 32 ∧
    (((⟨0, 3, 1048573, 0⟩ : IntHop).bytes ≤ (⟨0, 10, 5, 0⟩ : IntHop).bytes →
      IntHop.GetBytesDelta ⟨0, 10, 5, 0⟩ 1 ⟨0, 3, 1048573, 0⟩ =
        ((⟨0, 10, 5, 0⟩ : IntHop).bytes - (⟨0, 3, 1048573, 0⟩ : IntHop).bytes) *
          byteUnit * 1) ∧
    ((⟨0, 10, 5, 0⟩ : IntHop).bytes < (⟨0, 3, 1048573, 0⟩ : IntHop).bytes →
      IntHop.GetBytesDelta ⟨0, 10, 5, 0⟩ 1 ⟨0, 3, 1048573, 0⟩ =
        ((⟨0, 10, 5, 0⟩ : IntHop).bytes + 2 ^ bytesWidth -
          (⟨0, 3, 1048573, 0⟩ : IntHop).bytes) * byteUnit * 1) ∧
    ((⟨0, 3, 1048573, 0⟩ : IntHop).time ≤ (⟨0, 10, 5, 0⟩ : IntHop).time →
      IntHop.GetTimeDelta ⟨0, 10, 5, 0⟩ ⟨0, 3, 1048573, 0⟩ =
        (⟨0, 10, 5, 0⟩ : IntHop).time - (⟨0, 3, 1048573, 0⟩ : IntHop).time) ∧
    ((⟨0, 10, 5, 0⟩ : IntHop).time < (⟨0, 3, 1048573, 0⟩ : IntHop).time →
      IntHop.GetTimeDelta ⟨0, 10, 5, 0⟩ ⟨0, 3, 1048573, 0⟩ =
        (⟨0, 10, 5, 0⟩ : IntHop).time + 2 ^ timeWidth -
          (⟨0, 3, 1048573, 0⟩ : IntHop).time)) :=
  ⟨by decide, by decide, by decide,
    delta_wrap_spec ⟨0, 10, 5, 0⟩ ⟨0, 3, 1048573, 0⟩ 1 (by decide) (by decide) (by decide)⟩

/-- C2 counterexample: in PINT mode `GetStaticSize()` returns `sizeof(pint)`,
which is 2 whatever the configured width, so with a configured width of 1 byte
it returns 2 (not the claimed 1) while `Serialize` writes only 1 byte. -/
theorem getStaticSize_pint1_cex :
    IntHeader.GetStaticSize Mode.PINT = 2 ∧
    ¬ IntHeader.GetStaticSize Mode.PINT = 1 ∧
    (IntHeader.Serialize Mode.PINT 1 IntHeader.init).length = 1 := by
  decide

/-- C2 (amended): `GetStaticSize()` returns 42 in NORMAL, 8 in TS, 2 in PINT
regardless of the configured width, and 0 in NONE; this value equals the
number of bytes `Serialize` writes and `Deserialize` consumes in NORMAL, TS,
PINT with width 2, and NONE, and is in every mode the value `Deserialize`
returns; in PINT with width 1, `Serialize` writes (and `Deserialize` consumes)
1 byte while `GetStaticSize()` and the `Deserialize` return value are 2. -/
theorem getStaticSize_spec (pb : Nat) (h h0 : IntHeader) (rest : List Nat)
    (hWF : h.WF) (hpb : pb = 1 ∨ pb = 2) :
    IntHeader.GetStaticSize Mode.NORMAL = 42 ∧
    IntHeader.GetStaticSize Mode.TS = 8 ∧
    IntHeader.GetStaticSize Mode.PINT = 2 ∧
    IntHeader.GetStaticSize Mode.NONE = 0 ∧
    (∀ mode, ¬(mode = Mode.PINT ∧ pb = 1) →
      (IntHeader.Serialize mode pb h).length = IntHeader.GetStaticSize mode) ∧
    (IntHeader.Serialize Mode.PINT 1 h).length = 1 ∧
    (∀ mode,
      (IntHeader.Deserialize mode pb h0
        (IntHeader.Serialize mode pb h ++ rest)).2.2 = rest) ∧
    (∀ mode,
      (IntHeader.Deserialize mode pb h0
        (IntHeader.Serialize mode pb h ++ rest)).2.1 = IntHeader.GetStaticSize mode) := by
  obtain ⟨hlen, hhops, hn, hts, hp⟩ := hWF
  refine ⟨rfl, rfl, rfl, rfl, ?_, rfl, ?_, ?_⟩
  · intro mode hmode
    cases mode with
    | NORMAL =>
      simp [IntHeader.Serialize, serializeHops_length, hlen, writeU16_length,
        IntHeader.GetStaticSize, maxHop]
    | TS => rfl
    | PINT =>
      rcases hpb with rfl | rfl
      · exact absurd ⟨rfl, rfl⟩ hmode
      · rfl
    | NONE => rfl
  · intro mode
    cases mode with
    | NORMAL => rw [roundtrip_normal pb h h0 rest hlen hhops hn]
    | TS => rw [roundtrip_ts pb h h0 rest hts]
    | PINT =>
      rcases hpb with rfl | rfl
      · rw [roundtrip_pint1 h h0 rest]
      · rw [roundtrip_pint2 h h0 rest hp]
    | NONE => rw [roundtrip_none pb h h0 rest]
  · intro mode
    cases mode with
    | NORMAL =>
      rw [roundtrip_normal pb h h0 rest hlen hhops hn]
      rfl
    | TS =>
      rw [roundtrip_ts pb h h0 rest hts]
      rfl
    | PINT =>
      rcases hpb with rfl | rfl
      · rw [roundtrip_pint1 h h0 rest]
        rfl
      · rw [roundtrip_pint2 h h0 rest hp]
        rfl
    | NONE =>
      rw [roundtrip_none pb h h0 rest]
      rfl

/-- Witness for the amended C2 on a fresh header, width 2, empty tail. -/
theorem getStaticSize_spec_witness :
    IntHeader.init.WF ∧ ((2 : Nat) = 1 ∨ (2 : Nat) = 2) ∧
    (IntHeader.GetStaticSize Mode.NORMAL = 42 ∧
    IntHeader.GetStaticSize Mode.TS = 8 ∧
    IntHeader.GetStaticSize Mode.PINT = 2 ∧
    IntHeader.GetStaticSize Mode.NONE = 0 ∧
    (∀ mode, ¬(mode = Mode.PINT ∧ (2 : Nat) = 1) →
      (IntHeader.Serialize mode 2 IntHeader.init).length =
        IntHeader.GetStaticSize mode) ∧
    (IntHeader.Serialize Mode.PINT 1 IntHeader.init).length = 1 ∧
    (∀ mode,
      (IntHeader.Deserialize mode 2 IntHeader.init
        (IntHeader.Serialize mode 2 IntHeader.init ++ [])).2.2 = []) ∧
    (∀ mode,
      (IntHeader.Deserialize mode 2 IntHeader.init
        (IntHeader.Serialize mode 2 IntHeader.init ++ [])).2.1 =
        IntHeader.GetStaticSize mode)) :=
  ⟨by decide, Or.inr rfl,
    getStaticSize_spec 2 IntHeader.init IntHeader.init [] (by decide) (Or.inr rfl)⟩

/-- C3 counterexample: in PINT mode with a configured width of 1 byte the
`Deserialize` call consumes 1 byte, not `GetStaticSize() = 2` bytes. -/
theorem serialize_roundtrip_cex :
    (IntHeader.Serialize Mode.PINT 1 IntHeader.init).length -
      ((IntHeader.Deserialize Mode.PINT 1 IntHeader.init
        (IntHeader.Serialize Mode.PINT 1 IntHeader.init)).2.2).length = 1 ∧
    IntHeader.GetStaticSize Mode.PINT = 2 ∧
    ¬((IntHeader.Serialize Mode.PINT 1 IntHeader.init).length -
        ((IntHeader.Deserialize Mode.PINT 1 IntHeader.init
          (IntHeader.Serialize Mode.PINT 1 IntHeader.init)).2.2).length =
      IntHeader.GetStaticSize Mode.PINT) := by
  decide

/-- C3 (amended): serializing a representable header and deserializing those
bytes restores every field observable in the active mode (the hop ring and
counter in NORMAL, the timestamp in TS, `GetPower()` in PINT at either width,
nothing in NONE), and `Deserialize` consumes exactly the bytes `Serialize`
wrote — equal to `GetStaticSize()` except in PINT with width 1, where 1 byte
is consumed while `GetStaticSize()` is 2. -/
theorem serialize_roundtrip_spec (pb : Nat) (h h0 : IntHeader) (rest : List Nat)
    (hWF : h.WF) (hpb : pb = 1 ∨ pb = 2) :
    ((IntHeader.Deserialize Mode.NORMAL pb h0
        (IntHeader.Serialize Mode.NORMAL pb h ++ rest)).1.hop = h.hop ∧
      (IntHeader.Deserialize Mode.NORMAL pb h0
        (IntHeader.Serialize Mode.NORMAL pb h ++ rest)).1.nhop = h.nhop) ∧
    IntHeader.GetTs Mode.TS
        (IntHeader.Deserialize Mode.TS pb h0
          (IntHeader.Serialize Mode.TS pb h ++ rest)).1 =
      IntHeader.GetTs Mode.TS h ∧
    IntHeader.GetPower Mode.PINT pb
        (IntHeader.Deserialize Mode.PINT pb h0
          (IntHeader.Serialize Mode.PINT pb h ++ rest)).1 =
      IntHeader.GetPower Mode.PINT pb h ∧
    (∀ mode,
      (IntHeader.Deserialize mode pb h0
        (IntHeader.Serialize mode pb h ++ rest)).2.2 = rest) ∧
    (∀ mode, ¬(mode = Mode.PINT ∧ pb = 1) →
      (IntHeader.Serialize mode pb h).length = IntHeader.GetStaticSize mode) ∧
    (pb = 1 →
      (IntHeader.Serialize Mode.PINT pb h).length = 1 ∧
      IntHeader.GetStaticSize Mode.PINT = 2) := by
  obtain ⟨hlen, hhops, hn, hts, hp⟩ := hWF
  refine ⟨?_, ?_, ?_, ?_, ?_, ?_⟩
  · rw [roundtrip_normal pb h h0 rest hlen hhops hn]
    exact ⟨rfl, rfl⟩
  · rw [roundtrip_ts pb h h0 rest hts]
    simp [IntHeader.GetTs]
  · rcases hpb with rfl | rfl
    · rw [roundtrip_pint1 h h0 rest]
      show (h0.power / 2 ^ 8 * 2 ^ 8 + h.power % 2 ^ 8) % 2 ^ 8 = h.power % 2 ^ 8
      omega
    · rw [roundtrip_pint2 h h0 rest hp]
      simp [IntHeader.GetPower]
  · intro mode
    cases mode with
    | NORMAL => rw [roundtrip_normal pb h h0 rest hlen hhops hn]
    | TS => rw [roundtrip_ts pb h h0 rest hts]
    | PINT =>
      rcases hpb with rfl | rfl
      · rw [roundtrip_pint1 h h0 rest]
      · rw [roundtrip_pint2 h h0 rest hp]
    | NONE => rw [roundtrip_none pb h h0 rest]
  · intro mode hmode
    cases mode with
    | NORMAL =>
      simp [IntHeader.Serialize, serializeHops_length, hlen, writeU16_length,
        IntHeader.GetStaticSize, maxHop]
    | TS => rfl
    | PINT =>
      rcases hpb with rfl | rfl
      · exact absurd ⟨rfl, rfl⟩ hmode
      · rfl
    | NONE => rfl
  · rintro rfl
    exact ⟨rfl, rfl⟩

/-- Witness for the amended C3 on a header with one pushed hop, width 1. -/
theorem serialize_roundtrip_spec_witness :
    (IntHeader.PushHop Mode.NORMAL 1 IntHeader.init 9 4000 200 100000000000).WF ∧
    ((1 : Nat) = 1 ∨ (1 : Nat) = 2) ∧
    (((IntHeader.Deserialize Mode.NORMAL 1 IntHeader.init
        (IntHeader.Serialize Mode.NORMAL 1
          (IntHeader.PushHop Mode.NORMAL 1 IntHeader.init 9 4000 200 100000000000) ++
            [7])).1.hop =
      (IntHeader.PushHop Mode.NORMAL 1 IntHeader.init 9 4000 200 100000000000).hop ∧
      (IntHeader.Deserialize Mode.NORMAL 1 IntHeader.init
        (IntHeader.Serialize Mode.NORMAL 1
          (IntHeader.PushHop Mode.NORMAL 1 IntHeader.init 9 4000 200 100000000000) ++
            [7])).1.nhop =
      (IntHeader.PushHop Mode.NORMAL 1 IntHeader.init 9 4000 200 100000000000).nhop) ∧
    IntHeader.GetTs Mode.TS
        (IntHeader.Deserialize Mode.TS 1 IntHeader.init
          (IntHeader.Serialize Mode.TS 1
            (IntHeader.PushHop Mode.NORMAL 1 IntHeader.init 9 4000 200 100000000000) ++
              [7])).1 =
      IntHeader.GetTs Mode.TS
        (IntHeader.PushHop Mode.NORMAL 1 IntHeader.init 9 4000 200 100000000000) ∧
    IntHeader.GetPower Mode.PINT 1
        (IntHeader.Deserialize Mode.PINT 1 IntHeader.init
          (IntHeader.Serialize Mode.PINT 1
            (IntHeader.PushHop Mode.NORMAL 1 IntHeader.init 9 4000 200 100000000000) ++
              [7])).1 =
      IntHeader.GetPower Mode.PINT 1
        (IntHeader.PushHop Mode.NORMAL 1 IntHeader.init 9 4000 200 100000000000) ∧
    (∀ mode,
      (IntHeader.Deserialize mode 1 IntHeader.init
        (IntHeader.Serialize mode 1
          (IntHeader.PushHop Mode.NORMAL 1 IntHeader.init 9 4000 200 100000000000) ++
            [7])).2.2 = [7]) ∧
    (∀ mode, ¬(mode = Mode.PINT ∧ (1 : Nat) = 1) →
      (IntHeader.Serialize mode 1
        (IntHeader.PushHop Mode.NORMAL 1 IntHeader.init 9 4000 200 100000000000)).length =
        IntHeader.GetStaticSize mode) ∧
    ((1 : Nat) = 1 →
      (IntHeader.Serialize Mode.PINT 1
        (IntHeader.PushHop Mode.NORMAL 1 IntHeader.init 9 4000 200 100000000000)).length = 1 ∧
      IntHeader.GetStaticSize Mode.PINT = 2)) :=
  ⟨by decide, Or.inl rfl,
    serialize_roundtrip_spec 1
      (IntHeader.PushHop Mode.NORMAL 1 IntHeader.init 9 4000 200 100000000000)
      IntHeader.init [7] (by decide) (Or.inl rfl)⟩

end NS3
